import Mathlib

/-!
Shallow embedding of the pineapple replica core (`src/pineapple/pineapple.go`).

The per-replica mutable state (`Replica` method receiver in Go) is modelled by
the `Replica` structure below; every protocol handler becomes a pure function
from a `Replica` and an incoming message to a new `Replica` together with the
list of outgoing `Act`s (messages sent and client replies).  Handlers that
can dereference a nil pointer or hit an explicit `panic` in Go return
`Option`, with `none` standing for the crash.  Go `int` timestamps, ids,
ballots, keys and values are modelled as unbounded `Int` (the protocol only
increments timestamps from 0, so machine-word wraparound is unreachable);
the non-negative counters (`getOKs`, `setOKs`, ...) are `Nat`, and the
majority test `oks + 1 > N >> 1` becomes `oks + 1 > n / 2` on `Nat`.
Go maps are functions into `Option`; the `hasMaxTag` map (only ever set to
`true`) is a duplicate-free list of replica ids so that `len` is `.length`.
-/

/-- Mirrors `pineappleproto.Tag`: a (timestamp, replica-id) pair. -/
structure Tag where
  timestamp : Int
  id : Int
deriving DecidableEq

/-- Mirrors `pineappleproto.Payload`: a tagged register value. -/
structure Payload where
  tag : Tag
  value : Int
deriving DecidableEq

/-- The Go zero value `pineappleproto.Payload{}`. -/
def zeroPayload : Payload := { tag := { timestamp := 0, id := 0 }, value := 0 }

/-- The strict lexicographic order on tags from the spec:
`a < b` iff `a.ts < b.ts`, or `a.ts = b.ts` and `a.id < b.id`. -/
def tagLt (a b : Tag) : Prop :=
  a.timestamp < b.timestamp ∨ (a.timestamp = b.timestamp ∧ a.id < b.id)

/-- Reflexive closure of `tagLt`. -/
def tagLe (a b : Tag) : Prop := tagLt a b ∨ a = b

instance (a b : Tag) : Decidable (tagLt a b) := by
  unfold tagLt; infer_instance

instance (a b : Tag) : Decidable (tagLe a b) := by
  unfold tagLe; infer_instance

/-- Mirrors `state.Operation` as used by the core: `state.PUT`, `state.GET`,
and anything else (routed to the RMW path). -/
inductive Op where
  | put
  | get
  | rmw
deriving DecidableEq

/-- Mirrors `state.Command` (operation, key, value). -/
structure Command where
  op : Op
  k : Int
  v : Int
deriving DecidableEq

/-- Mirrors `pineapple.InstanceStatus`. -/
inductive InstanceStatus where
  | preparing
  | prepared
  | accepted
  | committed
deriving DecidableEq

/-- Mirrors `pineappleproto.Get`. -/
structure GetMsg where
  replicaID : Int
  instNo : Int
  write : Nat
  key : Int
  payload : Payload
deriving DecidableEq

/-- Mirrors `pineappleproto.GetReply`. -/
structure GetReply where
  replicaID : Int
  instNo : Int
  ok : Bool
  write : Nat
  key : Int
  payload : Payload
deriving DecidableEq

/-- Mirrors `pineappleproto.Set`. -/
structure SetMsg where
  replicaID : Int
  instNo : Int
  write : Nat
  key : Int
  payload : Payload
deriving DecidableEq

/-- Mirrors `pineappleproto.SetReply`. -/
structure SetReplyMsg where
  instNo : Int
deriving DecidableEq

/-- Mirrors `pineappleproto.RMWGet`. -/
structure RMWGet where
  leaderId : Int
  instNo : Int
  ballot : Int
  command : List Command
deriving DecidableEq

/-- Mirrors `pineappleproto.RMWGetReply`. -/
structure RMWGetReply where
  instNo : Int
  ballot : Int
  key : Int
  payload : Payload
deriving DecidableEq

/-- Mirrors `pineappleproto.RMWSet`. -/
structure RMWSet where
  leaderId : Int
  instNo : Int
  ballot : Int
  key : Int
  command : List Command
  payload : Payload
deriving DecidableEq

/-- Mirrors `pineappleproto.RMWSetReply`. -/
structure RMWSetReply where
  instNo : Int
  ok : Bool
  ballot : Int
deriving DecidableEq

/-- Mirrors `genericsmr.Propose` (the fields the core reads). -/
structure Propose where
  cmdId : Int
  command : Command
  timestamp : Int
deriving DecidableEq

/-- Mirrors `pineapple.LeaderBookkeeping`.  `clientProposals` collapses to the
presence flag plus the fields of `clientProposals[0]` that the core reads. -/
structure LeaderBookkeeping where
  hasClientProposals : Bool
  clientCmdId : Int
  clientTimestamp : Int
  maxRecvBallot : Int
  hasMaxTag : List Int
  getOKs : Nat
  setOKs : Nat
  getDone : Bool
  prepareOKs : Nat
  rmwGetOKs : Nat
  rmwSetOKs : Nat
  rmwGetDone : Bool
  nacks : Nat
  completed : Bool
deriving DecidableEq

/-- Mirrors `pineapple.Instance`. -/
structure Inst where
  cmds : List Command
  initialTag : Tag
  rmwId : Int
  receivedRMW : Payload
  receivedData : List GetReply
  receivedRMWData : List Payload
  ballot : Int
  status : InstanceStatus
  lb : Option LeaderBookkeeping
deriving DecidableEq

/-- The per-replica state: the fields of `pineapple.Replica` (plus the fields
it inherits from `genericsmr.Replica`) that the handlers read or write.
`pendingRMWs` stores instance numbers rather than Go pointers; dereferencing
an entry goes back through `instanceSpace`, which preserves the aliasing of
the Go `*Instance` slices. -/
structure Replica where
  selfId : Int
  n : Nat
  isLeader : Bool
  dreply : Bool
  defaultBallot : Int
  alive : Int → Bool
  data : Int → Option Payload
  instanceSpace : Int → Option Inst
  crtRmwId : Int
  rmwDoneUpTo : Int
  pendingRMWs : Int → Option Int

/-- Go map read with zero-value default: `r.data[k]`. -/
def dataGet (r : Replica) (k : Int) : Payload :=
  (r.data k).getD zeroPayload

/-- Pointwise map/array update. -/
def iupdate {α : Type} (f : Int → Option α) (k : Int) (v : Option α) :
    Int → Option α :=
  fun x => if x = k then v else f x

/-- Everything a handler emits: messages on the send path and client replies. -/
inductive Act where
  | sendGet (q : Int) (m : GetMsg)
  | sendSet (q : Int) (m : SetMsg)
  | sendGetReply (q : Int) (m : GetReply)
  | sendSetReply (q : Int) (m : SetReplyMsg)
  | sendRMWGet (q : Int) (m : RMWGet)
  | sendRMWSet (q : Int) (m : RMWSet)
  | sendRMWGetReply (q : Int) (m : RMWGetReply)
  | sendRMWSetReply (q : Int) (m : RMWSetReply)
  | clientReply (instNo : Int) (ok : Bool) (cmdId : Int)
deriving DecidableEq

/-- Mirrors `Replica.isLargerTag`: true if the received tag should replace the
current one.  Equal timestamps break ties by id, except that a leader whose
own id is on the current tag prefers the received tag. -/
def isLargerTag (r : Replica) (currentTag receivedTag : Tag) : Bool :=
  if receivedTag.timestamp > currentTag.timestamp then
    true
  else if receivedTag.timestamp = currentTag.timestamp then
    if currentTag.id = receivedTag.id then
      false
    else if r.isLeader = true ∧ currentTag.id = r.selfId then
      true
    else
      decide (currentTag.id < receivedTag.id)
  else
    false

/-- The repeated newest-wins merge idiom
`if r.isLargerTag(r.data[k].Tag, p.Tag) { r.data[k] = p }`. -/
def mergeData (r : Replica) (d : Int → Option Payload) (k : Int) (pay : Payload) :
    Int → Option Payload :=
  if isLargerTag r ((d k).getD zeroPayload).tag pay.tag then
    iupdate d k (some pay)
  else
    d

/-- Mirrors `Replica.replyClient`: reply to the client of an ABD instance,
guarded by `clientProposals != nil && r.Dreply && !inst.lb.completed`, and
mark the instance completed.  `none` is the Go nil-pointer crash on a missing
instance or a missing `lb`. -/
def replyClient (r : Replica) (instNo : Int) : Option (Replica × List Act) :=
  match r.instanceSpace instNo with
  | none => none
  | some inst =>
    match inst.lb with
    | none => none
    | some lb =>
      if lb.hasClientProposals ∧ r.dreply ∧ lb.completed = false then
        let is1 := iupdate r.instanceSpace instNo
          (some { inst with lb := some { lb with completed := true } })
        some ({ r with instanceSpace := is1 },
              [Act.clientReply instNo true lb.clientCmdId])
      else
        some (r, [])

/-- The recipient-selection loop shared by `bcastGet`: round-robin from
`self.id + 1`, at most `N - 1` iterations, skipping self (break), dead peers,
and peer 0 (the leader). -/
def bcastGetLoop (r : Replica) (args : GetMsg) : Nat → Int → List Act
  | 0, _ => []
  | Nat.succ fuel, q =>
    let q2 := (q + 1) % (r.n : Int)
    if q2 = r.selfId then []
    else if r.alive q2 = false then bcastGetLoop r args fuel q2
    else if q2 = 0 then bcastGetLoop r args fuel q2
    else Act.sendGet q2 args :: bcastGetLoop r args fuel q2

/-- Mirrors `Replica.bcastGet`: for a write the payload is empty, for a read
it is the local payload for the key. -/
def bcastGetActs (r : Replica) (instNo : Int) (write : Bool) (key : Int) :
    List Act :=
  let wr : Nat := if write then 1 else 0
  let pay := if write then zeroPayload else dataGet r key
  bcastGetLoop r
    { replicaID := r.selfId, instNo := instNo, write := wr, key := key,
      payload := pay }
    (r.n - 1) r.selfId

/-- The recipient-selection loop of `bcastSet`: like `bcastGetLoop` but also
skipping peers recorded in the instance's `hasMaxTag`. -/
def bcastSetLoop (r : Replica) (hm : List Int) (args : SetMsg) :
    Nat → Int → List Act
  | 0, _ => []
  | Nat.succ fuel, q =>
    let q2 := (q + 1) % (r.n : Int)
    if q2 = r.selfId then []
    else if r.alive q2 = false then bcastSetLoop r hm args fuel q2
    else if q2 = 0 then bcastSetLoop r hm args fuel q2
    else if hm.contains q2 then bcastSetLoop r hm args fuel q2
    else Act.sendSet q2 args :: bcastSetLoop r hm args fuel q2

/-- Mirrors `Replica.bcastSet`; `hm` is
`r.instanceSpace[instance].lb.hasMaxTag`, passed by the caller. -/
def bcastSetActs (r : Replica) (hm : List Int) (instNo : Int) (write : Bool)
    (key : Int) (pay : Payload) : List Act :=
  let wr : Nat := if write then 1 else 0
  bcastSetLoop r hm
    { replicaID := r.selfId, instNo := instNo, write := wr, key := key,
      payload := pay }
    (r.n - 1) r.selfId

/-- The recipient-selection loop of `bcastRMWGet` / `bcastRMWSet`: `sent`
counts only actual sends, the loop stops when it wraps around to self or when
`sent` reaches `N - 1`; the fuel bounds the number of `q` advances, which Go
bounds implicitly because `q` returns to `self.id` after `N` steps. -/
def bcastRMWGetLoop (r : Replica) (args : RMWGet) : Nat → Nat → Int → List Act
  | 0, _, _ => []
  | Nat.succ fuel, sent, q =>
    if sent < r.n - 1 then
      let q2 := (q + 1) % (r.n : Int)
      if q2 = r.selfId then []
      else if r.alive q2 = false then bcastRMWGetLoop r args fuel sent q2
      else Act.sendRMWGet q2 args :: bcastRMWGetLoop r args fuel (sent + 1) q2
    else []

/-- Mirrors `Replica.bcastRMWGet`. -/
def bcastRMWGetActs (r : Replica) (instNo ballot : Int) (cmds : List Command) :
    List Act :=
  bcastRMWGetLoop r
    { leaderId := r.selfId, instNo := instNo, ballot := ballot, command := cmds }
    r.n 0 r.selfId

/-- Same loop shape for `bcastRMWSet`. -/
def bcastRMWSetLoop (r : Replica) (args : RMWSet) : Nat → Nat → Int → List Act
  | 0, _, _ => []
  | Nat.succ fuel, sent, q =>
    if sent < r.n - 1 then
      let q2 := (q + 1) % (r.n : Int)
      if q2 = r.selfId then []
      else if r.alive q2 = false then bcastRMWSetLoop r args fuel sent q2
      else Act.sendRMWSet q2 args :: bcastRMWSetLoop r args fuel (sent + 1) q2
    else []

/-- Mirrors `Replica.bcastRMWSet`: the command list comes from the instance
and the payload from the key store at broadcast time. -/
def bcastRMWSetActs (r : Replica) (instNo ballot : Int) (key : Int) :
    List Act :=
  let cmds := match r.instanceSpace instNo with
              | some inst => inst.cmds
              | none => []
  bcastRMWSetLoop r
    { leaderId := r.selfId, instNo := instNo, ballot := ballot, key := key,
      command := cmds, payload := dataGet r key }
    r.n 0 r.selfId

/-- Mirrors `Replica.handleGet` (peer side of the discovery phase). -/
def handleGet (r : Replica) (g : GetMsg) : Replica × List Act :=
  let data := dataGet r g.key
  let doesExist := (r.data g.key).isSome
  if g.write = 0 then
    if doesExist = false ∨ isLargerTag r data.tag g.payload.tag = true then
      ({ r with data := iupdate r.data g.key (some g.payload) },
       [Act.sendGetReply g.replicaID
         { replicaID := r.selfId, instNo := g.instNo, ok := true,
           write := g.write, key := g.key, payload := g.payload }])
    else
      (r, [Act.sendGetReply g.replicaID
        { replicaID := r.selfId, instNo := g.instNo, ok := true,
          write := g.write, key := g.key, payload := data }])
  else
    (r, [Act.sendGetReply g.replicaID
      { replicaID := r.selfId, instNo := g.instNo, ok := true,
        write := g.write, key := g.key, payload := zeroPayload }])

/-- Mirrors `Replica.handleSet` (peer side of the propagate phase). -/
def handleSet (r : Replica) (s : SetMsg) : Replica × List Act :=
  let r1 := { r with data := mergeData r r.data s.key s.payload }
  (r1, [Act.sendSetReply s.replicaID { instNo := s.instNo }])

/-- The count of replies whose payload tag equals `t`
(the `identicalCount` accumulation in `handleGetReply`). -/
def countTagMatches (t : Tag) : List GetReply → Nat
  | [] => 0
  | rep :: rest => (if rep.payload.tag = t then 1 else 0) + countTagMatches t rest

/-- Go map insert `hasMaxTag[id] = true` keeping the list duplicate-free. -/
def insertId (l : List Int) (q : Int) : List Int :=
  if l.contains q then l else l ++ [q]

/-- The `hasMaxTag` accumulation in `handleGetReply`: record every replying
peer whose tag equals the (post-merge) local tag. -/
def addMaxTagIds (t : Tag) (hm : List Int) : List GetReply → List Int
  | [] => hm
  | rep :: rest =>
    addMaxTagIds t (if rep.payload.tag = t then insertId hm rep.replicaID else hm)
      rest

/-- First element's payload tag (`receivedData[0].Payload.Tag`). -/
def firstTagOf : List GetReply → Tag
  | [] => { timestamp := 0, id := 0 }
  | rep :: _ => rep.payload.tag

/-- Mirrors `Replica.handleGetReply` (coordinator side, discovery phase):
accumulate the reply, merge its payload, and on the first majority either
take the optimized-read exit or mint a write tag and broadcast Set. -/
def handleGetReply (r : Replica) (gr : GetReply) : Option (Replica × List Act) :=
  match r.instanceSpace gr.instNo with
  | none => none
  | some inst =>
    match inst.lb with
    | none => none
    | some lb =>
      let key := gr.key
      if lb.getDone then
        some (r, [])
      else
        let inst1 := { inst with receivedData := inst.receivedData ++ [gr] }
        let is1 := iupdate r.instanceSpace gr.instNo (some inst1)
        let r1 := { r with instanceSpace := is1 }
        let r2 := { r1 with data := mergeData r1 r1.data key gr.payload }
        if gr.ok then
          let lb1 := { lb with getOKs := lb.getOKs + 1 }
          let inst2 := { inst1 with lb := some lb1 }
          let is2 := iupdate r2.instanceSpace gr.instNo (some inst2)
          let r3 := { r2 with instanceSpace := is2 }
          if lb1.getOKs + 1 > r3.n / 2 then
            let ownTag := (dataGet r3 key).tag
            let firstTag := firstTagOf inst1.receivedData
            let hm1 := addMaxTagIds ownTag lb1.hasMaxTag inst1.receivedData
            let identicalCount :=
              if inst.initialTag = firstTag ∨
                  isLargerTag r3 inst.initialTag firstTag = true then
                countTagMatches firstTag inst1.receivedData + 1
              else
                countTagMatches firstTag inst1.receivedData
            let receivedDataCount := inst1.receivedData.length
            let lb2 := { lb1 with hasMaxTag := hm1, getDone := true }
            let inst3 := { inst2 with receivedData := [], lb := some lb2 }
            let is3 := iupdate r3.instanceSpace gr.instNo (some inst3)
            let r4 := { r3 with instanceSpace := is3 }
            if gr.write = 0 ∧ identicalCount = receivedDataCount + 1 then
              replyClient r4 gr.instNo
            else
              let lb3 := { lb2 with nacks := 0 }
              let inst4 :=
                { inst3 with
                  status := InstanceStatus.prepared, lb := some lb3 }
              let is4 := iupdate r4.instanceSpace gr.instNo (some inst4)
              let r5 := { r4 with instanceSpace := is4 }
              if gr.write = 1 then
                let newTag : Tag :=
                  { timestamp := (dataGet r5 key).tag.timestamp + 1,
                    id := r5.selfId }
                let d6 := iupdate r5.data key
                  (some { tag := newTag, value := (dataGet r5 key).value })
                let r6 := { r5 with data := d6 }
                some (r6, bcastSetActs r6 lb3.hasMaxTag gr.instNo true key
                  (dataGet r6 key))
              else
                some (r5, bcastSetActs r5 lb3.hasMaxTag gr.instNo false key
                  (dataGet r5 key))
          else
            some (r3, [])
        else
          some (r2, [])

/-- Mirrors `Replica.handleSetReply` (coordinator side, propagate phase). -/
def handleSetReply (r : Replica) (sr : SetReplyMsg) :
    Option (Replica × List Act) :=
  match r.instanceSpace sr.instNo with
  | none => none
  | some inst =>
    match inst.lb with
    | none => none
    | some lb =>
      let lb1 := { lb with setOKs := lb.setOKs + 1 }
      let is1 := iupdate r.instanceSpace sr.instNo (some { inst with lb := some lb1 })
      let r1 := { r with instanceSpace := is1 }
      if (lb1.setOKs + 1 > lb1.hasMaxTag.length ∧
          lb1.hasMaxTag.length < r1.n / 2) ∨
          lb1.setOKs + 1 > r1.n / 2 then
        replyClient r1 sr.instNo
      else
        some (r1, [])

/-- A fresh peer-side instance, Go zero values for the unnamed fields. -/
def mkPeerInst (cmds : List Command) (ballot : Int) : Inst :=
  { cmds := cmds, initialTag := { timestamp := 0, id := 0 }, rmwId := 0,
    receivedRMW := zeroPayload, receivedData := [], receivedRMWData := [],
    ballot := ballot, status := InstanceStatus.accepted, lb := none }

/-- Mirrors `Replica.handleRMWGet` (peer side of the RMW discovery phase).
`none` is the `panic("outdated ballot received")` (or the index panic on an
empty command list). -/
def handleRMWGet (r : Replica) (m : RMWGet) : Option (Replica × List Act) :=
  match m.command with
  | [] => none
  | cmd0 :: _ =>
    let key := cmd0.k
    match r.instanceSpace m.instNo with
    | none =>
      if m.ballot < r.defaultBallot then
        none
      else
        let is1 := iupdate r.instanceSpace m.instNo
          (some (mkPeerInst m.command m.ballot))
        some ({ r with instanceSpace := is1 },
              [Act.sendRMWGetReply m.leaderId
                { instNo := m.instNo, ballot := r.defaultBallot, key := key,
                  payload := zeroPayload }])
    | some inst =>
      if m.ballot < inst.ballot then
        none
      else
        let st1 := if inst.status ≠ InstanceStatus.committed then
            InstanceStatus.accepted
          else inst.status
        let inst1 := { inst with cmds := m.command, status := st1 }
        let is2 := iupdate r.instanceSpace m.instNo (some inst1)
        some ({ r with instanceSpace := is2 },
              [Act.sendRMWGetReply m.leaderId
                { instNo := m.instNo, ballot := r.defaultBallot, key := key,
                  payload := dataGet r key }])

/-- The write that `handleRMWGetReply`'s max-scan loop performs: on each
reply with a tag larger than the current local one it stores
`rmwGetReply.Payload` (the payload of the reply that closed the quorum, not
the scanned one — this mirrors the Go code exactly). -/
def rmwScan (r : Replica) (key : Int) (incoming : Payload) :
    List Payload → (Int → Option Payload) → (Int → Option Payload)
  | [], d => d
  | p :: rest, d =>
    rmwScan r key incoming rest
      (if isLargerTag r ((d key).getD zeroPayload).tag p.tag then
        iupdate d key (some incoming)
      else d)

/-- Mirrors `Replica.handleRMWGetReply` (coordinator side): accumulate, and on
the first majority run the max-scan, mint `(ts + 1, self.id)` with
`value + 1`, and broadcast RMWSet. -/
def handleRMWGetReply (r : Replica) (m : RMWGetReply) :
    Option (Replica × List Act) :=
  match r.instanceSpace m.instNo with
  | none => none
  | some inst =>
    match inst.lb with
    | none => none
    | some lb =>
      if lb.rmwGetDone then
        some (r, [])
      else
        let inst1 := { inst with receivedRMWData :=
          inst.receivedRMWData ++ [m.payload] }
        let lb1 := { lb with rmwGetOKs := lb.rmwGetOKs + 1 }
        let is1 := iupdate r.instanceSpace m.instNo
          (some { inst1 with lb := some lb1 })
        let r1 := { r with instanceSpace := is1 }
        if lb1.rmwGetOKs + 1 > r1.n / 2 then
          let key := m.key
          let d2 := rmwScan r1 key m.payload inst1.receivedRMWData r1.data
          let r2 := { r1 with data := d2 }
          let lb2 := { lb1 with rmwGetDone := true, nacks := 0 }
          let inst2 := { inst1 with receivedRMWData := [], lb := some lb2 }
          let is2 := iupdate r2.instanceSpace m.instNo (some inst2)
          let r3 := { r2 with instanceSpace := is2 }
          let newTag : Tag :=
            { timestamp := (dataGet r3 key).tag.timestamp + 1, id := r3.selfId }
          let newValue := (dataGet r3 key).value + 1
          let d4 := iupdate r3.data key
            (some { tag := newTag, value := newValue })
          let r4 := { r3 with data := d4 }
          some (r4, bcastRMWSetActs r4 m.instNo m.ballot key)
        else
          some (r1, [])

/-- Mirrors `Replica.handleRMWSet` (peer side of the RMW commit phase);
`none` is the `panic("outdated ballot received")`. -/
def handleRMWSet (r : Replica) (m : RMWSet) : Option (Replica × List Act) :=
  match r.instanceSpace m.instNo with
  | none =>
    if m.ballot < r.defaultBallot then
      none
    else
      let inst1 := { mkPeerInst m.command m.ballot with receivedRMW := m.payload }
      let is1 := iupdate r.instanceSpace m.instNo (some inst1)
      let r1 := { r with instanceSpace := is1 }
      let r2 := { r1 with data := mergeData r1 r1.data m.key m.payload }
      some (r2, [Act.sendRMWSetReply m.leaderId
        { instNo := m.instNo, ok := true, ballot := r.defaultBallot }])
  | some inst =>
    if inst.ballot > m.ballot then
      none
    else
      let st1 := if inst.status ≠ InstanceStatus.committed then
          InstanceStatus.accepted
        else inst.status
      let inst1 :=
        if inst.ballot < m.ballot then
          { inst with
            cmds := m.command, ballot := m.ballot,
            status := InstanceStatus.accepted, receivedRMW := m.payload }
        else
          { inst with
            cmds := m.command, status := st1, receivedRMW := m.payload }
      let is2 := iupdate r.instanceSpace m.instNo (some inst1)
      let r1 := { r with instanceSpace := is2 }
      let r2 := { r1 with data := mergeData r1 r1.data m.key m.payload }
      some (r2, [Act.sendRMWSetReply m.leaderId
        { instNo := m.instNo, ok := true, ballot := r.defaultBallot }])

/-- Mirrors `Replica.handleRMWSetReply` (coordinator side): on a majority,
advance `rmwDoneUpTo` and record the instance in `pendingRMWs`. -/
def handleRMWSetReply (r : Replica) (m : RMWSetReply) :
    Option (Replica × List Act) :=
  match r.instanceSpace m.instNo with
  | none => none
  | some inst =>
    match inst.lb with
    | none => none
    | some lb =>
      let lb1 := { lb with rmwSetOKs := lb.rmwSetOKs + 1 }
      let is1 := iupdate r.instanceSpace m.instNo (some { inst with lb := some lb1 })
      let r1 := { r with instanceSpace := is1 }
      if lb1.rmwSetOKs + 1 > r1.n / 2 then
        let pend := iupdate r1.pendingRMWs inst.rmwId (some m.instNo)
        some ({ r1 with rmwDoneUpTo := r1.rmwDoneUpTo + 1, pendingRMWs := pend },
              [])
      else
        some (r1, [])

/-- One visit of the inner loop of `Replica.executeRMWs`: reply to the client
of a committed RMW instance at most once, flipping `completed`. -/
def executeRMWStep (r : Replica) (i : Int) : Option (Replica × List Act) :=
  match r.pendingRMWs i with
  | none => none
  | some j =>
    match r.instanceSpace j with
    | none => none
    | some inst =>
      match inst.lb with
      | none => none
      | some lb =>
        if lb.hasClientProposals ∧ r.dreply ∧ lb.completed = false then
          let is1 := iupdate r.instanceSpace j
            (some { inst with lb := some { lb with completed := true } })
          some ({ r with instanceSpace := is1 },
                [Act.clientReply j true lb.clientCmdId])
        else
          some (r, [])

/-- The `LeaderBookkeeping` literal of the ABD branch of `handlePropose`. -/
def abdProposeLB (p : Propose) : LeaderBookkeeping :=
  { hasClientProposals := true, clientCmdId := p.cmdId,
    clientTimestamp := p.timestamp, maxRecvBallot := 0, hasMaxTag := [],
    getOKs := 0, setOKs := 0, getDone := false, prepareOKs := 0,
    rmwGetOKs := 0, rmwSetOKs := 0, rmwGetDone := false, nacks := 0,
    completed := false }

/-- Mirrors `Replica.handlePropose`, with the chosen free slot passed in
explicitly (Go scans forward from `crtInstance` for the first nil slot). -/
def handlePropose (r : Replica) (slot : Int) (p : Propose) :
    Replica × List Act :=
  let cmds := [p.command]
  let key := p.command.k
  let abdInst : Inst :=
    { cmds := cmds, initialTag := { timestamp := 0, id := 0 }, rmwId := 0,
      receivedRMW := zeroPayload, receivedData := [], receivedRMWData := [],
      ballot := 0, status := InstanceStatus.preparing,
      lb := some (abdProposeLB p) }
  let r1 := { r with instanceSpace := iupdate r.instanceSpace slot (some abdInst) }
  if p.command.op ≠ Op.put ∧ p.command.op ≠ Op.get then
    let rmwInst : Inst :=
      { cmds := cmds, initialTag := { timestamp := 0, id := 0 },
        rmwId := r.crtRmwId, receivedRMW := zeroPayload, receivedData := [],
        receivedRMWData := [], ballot := 0, status := InstanceStatus.preparing,
        lb := some { abdProposeLB p with hasMaxTag := [] } }
    let is2 := iupdate r1.instanceSpace slot (some rmwInst)
    let r2 := { r1 with crtRmwId := r1.crtRmwId + 1, instanceSpace := is2 }
    (r2, bcastRMWGetActs r2 slot 0 cmds)
  else if p.command.op = Op.put then
    (r1, bcastGetActs r1 slot true key)
  else
    match r.data key with
    | none =>
      let tag : Tag := { timestamp := 0, id := r.selfId }
      let is3 := iupdate r1.instanceSpace slot
        (some { abdInst with initialTag := tag })
      let d3 := iupdate r1.data key (some { tag := tag, value := 0 })
      let r2 := { r1 with instanceSpace := is3, data := d3 }
      (r2, bcastGetActs r2 slot false key)
    | some d =>
      let is4 := iupdate r1.instanceSpace slot
        (some { abdInst with initialTag := d.tag })
      let r2 := { r1 with instanceSpace := is4 }
      (r2, bcastGetActs r2 slot false key)

/-- The ballot a peer compares an incoming RMW message against: the
instance's ballot, or `defaultBallot` when the slot is still empty. -/
def localBallot (r : Replica) (i : Int) : Int :=
  match r.instanceSpace i with
  | none => r.defaultBallot
  | some inst => inst.ballot

/-- Projection helpers for stating facts about handler results. -/
def actsOf : Option (Replica × List Act) → List Act
  | none => []
  | some pr => pr.2

/-- The key store of a handler result (`none` if the handler crashed). -/
def resultData : Option (Replica × List Act) → Int → Option Payload
  | none, _ => none
  | some pr, k => pr.1.data k

/-- Does an action list contain a client reply? -/
def hasClientReply (acts : List Act) : Bool :=
  acts.any fun a => match a with
    | Act.clientReply _ _ _ => true
    | _ => false

/-- Does an action list contain a `Set` message? -/
def hasSendSet (acts : List Act) : Bool :=
  acts.any fun a => match a with
    | Act.sendSet _ _ => true
    | _ => false

/-- Targets of the `Get` messages in an action list. -/
def getTargets (acts : List Act) : List Int :=
  acts.filterMap fun a => match a with
    | Act.sendGet q _ => some q
    | _ => none

/-- Targets of the `Set` messages in an action list. -/
def setTargets (acts : List Act) : List Int :=
  acts.filterMap fun a => match a with
    | Act.sendSet q _ => some q
    | _ => none

/-- Does an action list contain an `RMWGetReply` to `q`? -/
def hasRMWGetReplyTo (q : Int) (acts : List Act) : Bool :=
  acts.any fun a => match a with
    | Act.sendRMWGetReply q2 _ => q2 = q
    | _ => false

/-- Does an action list contain an `RMWSetReply` to `q`? -/
def hasRMWSetReplyTo (q : Int) (acts : List Act) : Bool :=
  acts.any fun a => match a with
    | Act.sendRMWSetReply q2 _ => q2 = q
    | _ => false


/-- `completed` flag read through an optional instance (false when absent,
mirroring that no reply can have been sent for an unused slot). -/
def instCompleted : Option Inst → Bool
  | some inst =>
    match inst.lb with
    | some lb => lb.completed
    | none => false
  | none => false

/-- `completed` flag of instance `i` on a replica. -/
def completedAt (r : Replica) (i : Int) : Bool :=
  instCompleted (r.instanceSpace i)

/-- The number of client replies for instance `i` in an action list. -/
def repliesFor (i : Int) (acts : List Act) : Nat :=
  acts.countP fun a => match a with
    | Act.clientReply j _ _ => j == i
    | _ => false

/-- Per-step accounting: a step may emit a client reply for instance `i`
only by flipping that instance's `completed` flag from false to true. -/
def replyBudget (r r' : Replica) (acts : List Act) (i : Int) : Prop :=
  repliesFor i acts + (completedAt r i).toNat ≤ (completedAt r' i).toNat

/-- One atomic event of a replica: one handler invocation of the event loop,
one visit of the `executeRMWs` worker, or the admission of a client proposal
into a free slot (Go scans forward from `crtInstance`, so the chosen slot is
always free). -/
inductive Step : Replica → Replica → List Act → Prop where
  | hget (r : Replica) (g : GetMsg) :
      Step r (handleGet r g).1 (handleGet r g).2
  | hset (r : Replica) (s : SetMsg) :
      Step r (handleSet r s).1 (handleSet r s).2
  | hgetReply (r r' : Replica) (gr : GetReply) (acts : List Act) :
      handleGetReply r gr = some (r', acts) → Step r r' acts
  | hsetReply (r r' : Replica) (sr : SetReplyMsg) (acts : List Act) :
      handleSetReply r sr = some (r', acts) → Step r r' acts
  | hrmwGet (r r' : Replica) (m : RMWGet) (acts : List Act) :
      handleRMWGet r m = some (r', acts) → Step r r' acts
  | hrmwGetReply (r r' : Replica) (m : RMWGetReply) (acts : List Act) :
      handleRMWGetReply r m = some (r', acts) → Step r r' acts
  | hrmwSet (r r' : Replica) (m : RMWSet) (acts : List Act) :
      handleRMWSet r m = some (r', acts) → Step r r' acts
  | hrmwSetReply (r r' : Replica) (m : RMWSetReply) (acts : List Act) :
      handleRMWSetReply r m = some (r', acts) → Step r r' acts
  | hexec (r r' : Replica) (i : Int) (acts : List Act) :
      executeRMWStep r i = some (r', acts) → Step r r' acts
  | hpropose (r : Replica) (slot : Int) (p : Propose) :
      r.instanceSpace slot = none →
      Step r (handlePropose r slot p).1 (handlePropose r slot p).2

/-- Finite interleaved executions, accumulating the number of client replies
emitted for instance `i`. -/
inductive Exec (i : Int) : Replica → Replica → Nat → Prop where
  | refl (r : Replica) : Exec i r r 0
  | step (r1 r2 r3 : Replica) (acts : List Act) (k : Nat) :
      Step r1 r2 acts → Exec i r2 r3 k →
      Exec i r1 r3 (repliesFor i acts + k)

/-- The four `isLargerTag`-guarded key-store writers named by the
tag-monotonicity claim, minus the RMW quorum handler (treated separately). -/
inductive AbdStep where
  | get (g : GetMsg)
  | set (s : SetMsg)
  | getReply (gr : GetReply)
  | rmwSet (m : RMWSet)

/-- Run one of the four handlers. -/
def abdStepRun (r : Replica) : AbdStep → Option (Replica × List Act)
  | AbdStep.get g => some (handleGet r g)
  | AbdStep.set s => some (handleSet r s)
  | AbdStep.getReply gr => handleGetReply r gr
  | AbdStep.rmwSet m => handleRMWSet r m

/-- Are all actions `Set` messages (a possibly-shortened Set broadcast)? -/
def allSendSet (acts : List Act) : Bool :=
  acts.all fun a => match a with
    | Act.sendSet _ _ => true
    | _ => false

/-- A concrete base replica for the closed evaluation theorems:
id 1 in a 3-replica deployment, not leader, `Dreply` on, everyone alive. -/
def rBase : Replica :=
  { selfId := 1, n := 3, isLeader := false, dreply := true, defaultBallot := 0,
    alive := fun _ => true, data := fun _ => none,
    instanceSpace := fun _ => none, crtRmwId := 0, rmwDoneUpTo := -1,
    pendingRMWs := fun _ => none }

/-- A fresh coordinator bookkeeping record with a client proposal attached. -/
def lbBase : LeaderBookkeeping :=
  { hasClientProposals := true, clientCmdId := 0, clientTimestamp := 0,
    maxRecvBallot := 0, hasMaxTag := [], getOKs := 0, setOKs := 0,
    getDone := false, prepareOKs := 0, rmwGetOKs := 0, rmwSetOKs := 0,
    rmwGetDone := false, nacks := 0, completed := false }

/-- A fresh coordinator instance. -/
def instBase : Inst :=
  { cmds := [], initialTag := { timestamp := 0, id := 0 }, rmwId := 0,
    receivedRMW := zeroPayload, receivedData := [], receivedRMWData := [],
    ballot := 0, status := InstanceStatus.preparing, lb := some lbBase }

/-- Fixture: non-leader replica holding tag (3,1) for key 7. -/
def rC1w : Replica :=
  { rBase with data := iupdate rBase.data 7 (some ⟨⟨3, 1⟩, 5⟩) }

/-- Fixture: a Set message carrying tag (4,1) for key 7. -/
def sC1w : SetMsg :=
  { replicaID := 0, instNo := 0, write := 1, key := 7, payload := ⟨⟨4, 1⟩, 6⟩ }

/-- Fixture: leader with id 2 holding tag (5,2) for key 7. -/
def rC1a : Replica :=
  { rBase with
    selfId := 2, isLeader := true,
    data := iupdate rBase.data 7 (some ⟨⟨5, 2⟩, 10⟩) }

/-- Fixture: a Set message carrying the strictly smaller tag (5,1). -/
def sC1a : SetMsg :=
  { replicaID := 0, instNo := 0, write := 1, key := 7, payload := ⟨⟨5, 1⟩, 9⟩ }

/-- Fixture: RMW coordinator instance one reply short of its quorum, having
already received a payload with tag (11,0). -/
def instC1b : Inst :=
  { instBase with
    receivedRMWData := [⟨⟨11, 0⟩, 7⟩],
    lb := some { lbBase with rmwGetOKs := 1 } }

/-- Fixture: non-leader replica with id 2 holding tag (10,1) for key 9. -/
def rC1b : Replica :=
  { rBase with
    selfId := 2,
    data := iupdate rBase.data 9 (some ⟨⟨10, 1⟩, 5⟩),
    instanceSpace := iupdate rBase.instanceSpace 0 (some instC1b) }

/-- Fixture: the quorum-closing RMWGet reply with the small tag (1,1). -/
def mC1b : RMWGetReply :=
  { instNo := 0, ballot := 0, key := 9, payload := ⟨⟨1, 1⟩, 3⟩ }

/-- Fixture: GET coordinator instance whose `initialTag` is (5,2). -/
def instC2c : Inst :=
  { instBase with
    initialTag := ⟨5, 2⟩,
    lb := some { lbBase with clientCmdId := 5 } }

/-- Fixture: leader with id 2, coordinating a GET with `initialTag` (5,2). -/
def rC2c : Replica :=
  { rBase with
    selfId := 2, isLeader := true,
    data := iupdate rBase.data 3 (some ⟨⟨5, 2⟩, 0⟩),
    instanceSpace := iupdate rBase.instanceSpace 0 (some instC2c) }

/-- Fixture: quorum-closing GetReply carrying tag (5,1), i.e. a common tag
strictly below the coordinator's `initialTag`. -/
def grC2c : GetReply :=
  { replicaID := 1, instNo := 0, ok := true, write := 0, key := 3,
    payload := ⟨⟨5, 1⟩, 0⟩ }

/-- Fixture: GET coordinator instance whose `initialTag` is (2,0). -/
def instC2w : Inst :=
  { instBase with
    initialTag := ⟨2, 0⟩,
    lb := some { lbBase with clientCmdId := 8 } }

/-- Fixture: non-leader GET coordinator holding tag (2,0) for key 3. -/
def rC2w : Replica :=
  { rBase with
    data := iupdate rBase.data 3 (some ⟨⟨2, 0⟩, 9⟩),
    instanceSpace := iupdate rBase.instanceSpace 0 (some instC2w) }

/-- Fixture: quorum-closing GetReply agreeing with the coordinator. -/
def grC2w : GetReply :=
  { replicaID := 2, instNo := 0, ok := true, write := 0, key := 3,
    payload := ⟨⟨2, 0⟩, 9⟩ }

/-- Fixture: PUT coordinator instance whose client proposal writes 42. -/
def instC3 : Inst :=
  { instBase with
    cmds := [{ op := Op.put, k := 7, v := 42 }],
    lb := some { lbBase with clientCmdId := 9 } }

/-- Fixture: coordinator of a PUT of value 42, local store holds value 5
under tag (3,1). -/
def rC3 : Replica :=
  { rBase with
    data := iupdate rBase.data 7 (some ⟨⟨3, 1⟩, 5⟩),
    instanceSpace := iupdate rBase.instanceSpace 0 (some instC3) }

/-- Fixture: quorum-closing GetReply of the PUT (peers answer a write-mode
Get with an empty payload). -/
def grC3 : GetReply :=
  { replicaID := 2, instNo := 0, ok := true, write := 1, key := 7,
    payload := zeroPayload }

/-- Fixture: RMW coordinator instance with one buffered reply of tag (11,1)
and value 77. -/
def instC4 : Inst :=
  { instBase with
    receivedRMWData := [⟨⟨11, 1⟩, 77⟩],
    lb := some { lbBase with rmwGetOKs := 1 } }

/-- Fixture: RMW coordinator holding tag (10,0), value 5 for key 4. -/
def rC4 : Replica :=
  { rBase with
    data := iupdate rBase.data 4 (some ⟨⟨10, 0⟩, 5⟩),
    instanceSpace := iupdate rBase.instanceSpace 0 (some instC4) }

/-- Fixture: the quorum-closing RMWGet reply with tag (1,0), value 3. -/
def mC4 : RMWGetReply :=
  { instNo := 0, ballot := 0, key := 4, payload := ⟨⟨1, 0⟩, 3⟩ }

/-- Fixture: propagate-phase coordinator in a 5-replica deployment whose
`hasMaxTag` already names peer 2. -/
def instC5c : Inst :=
  { instBase with
    lb := some { lbBase with hasMaxTag := [2], clientCmdId := 4 } }

/-- Fixture: the 5-replica coordinator of that instance. -/
def rC5c : Replica :=
  { rBase with
    n := 5,
    instanceSpace := iupdate rBase.instanceSpace 0 (some instC5c) }

/-- Fixture: a SetReply for instance 0. -/
def srC5 : SetReplyMsg := { instNo := 0 }

/-- Fixture: propagate-phase coordinator with an empty `hasMaxTag`. -/
def rC5w : Replica :=
  { rBase with instanceSpace := iupdate rBase.instanceSpace 0 (some instBase) }

/-- Fixture: an RMWGet with a stale ballot for an empty slot. -/
def mC7w : RMWGet :=
  { leaderId := 0, instNo := 0, ballot := -1,
    command := [{ op := Op.rmw, k := 1, v := 0 }] }

/-- Fixture: coordinator whose GET discovery phase has already closed. -/
def rC9w : Replica :=
  { rBase with
    instanceSpace :=
      iupdate rBase.instanceSpace 0
        (some { instBase with lb := some { lbBase with getDone := true } }) }

/-- Fixture: a late duplicate GetReply for that instance. -/
def grC9w : GetReply :=
  { replicaID := 2, instNo := 0, ok := true, write := 0, key := 3,
    payload := ⟨⟨9, 9⟩, 1⟩ }

theorem tagLe_rfl (a : Tag) : tagLe a a := Or.inr rfl

theorem tagLt_tagLe {a b : Tag} (h : tagLt a b) : tagLe a b := Or.inl h

theorem tagLe_trans {a b c : Tag} (h1 : tagLe a b) (h2 : tagLe b c) :
    tagLe a c := by
  obtain ⟨x1, x2⟩ := a
  obtain ⟨y1, y2⟩ := b
  obtain ⟨z1, z2⟩ := c
  simp only [tagLe, tagLt, Tag.mk.injEq] at h1 h2 ⊢
  omega

theorem isLargerTag_iff (r : Replica) (a b : Tag) :
    isLargerTag r a b = true ↔
      (tagLt a b ∨ (a.timestamp = b.timestamp ∧ a.id ≠ b.id ∧
        r.isLeader = true ∧ a.id = r.selfId)) := by
  obtain ⟨x1, x2⟩ := a
  obtain ⟨y1, y2⟩ := b
  simp only [isLargerTag, tagLt, gt_iff_lt]
  split
  · rename_i h1
    simp only [true_iff]
    exact Or.inl (Or.inl h1)
  · rename_i h1
    split
    · rename_i h2
      split
      · rename_i h3
        simp only [Bool.false_eq_true, false_iff]
        intro h
        rcases h with h | ⟨ha, hb, _, _⟩
        · omega
        · exact hb h3
      · rename_i h3
        split
        · rename_i h4
          simp only [true_iff]
          exact Or.inr ⟨by omega, fun hc => h3 hc, h4.1, h4.2⟩
        · rename_i h4
          simp only [decide_eq_true_eq]
          constructor
          · intro h
            exact Or.inl (Or.inr ⟨by omega, h⟩)
          · intro h
            rcases h with h | ⟨ha, hb, hc, hd⟩
            · omega
            · exact absurd ⟨hc, hd⟩ h4
    · rename_i h2
      simp only [Bool.false_eq_true, false_iff]
      intro h
      rcases h with h | ⟨ha, _, _, _⟩
      · omega
      · omega

theorem isLargerTag_nonleader {r : Replica} (hL : r.isLeader = false)
    {a b : Tag} (h : isLargerTag r a b = true) : tagLt a b := by
  rcases (isLargerTag_iff r a b).mp h with h2 | ⟨_, _, h3, _⟩
  · exact h2
  · rw [hL] at h3
    exact absurd h3 (by simp)

theorem isLargerTag_self (r : Replica) (t : Tag) :
    isLargerTag r t t = false := by
  simp [isLargerTag]

theorem iupdate_self {α : Type} (f : Int → Option α) (k : Int) (v : Option α) :
    iupdate f k v k = v := by
  simp [iupdate]

theorem iupdate_other {α : Type} (f : Int → Option α) (k x : Int)
    (v : Option α) (h : x ≠ k) : iupdate f k v x = f x := by
  simp [iupdate, h]

theorem mergeData_mono {r : Replica} (hL : r.isLeader = false)
    (d : Int → Option Payload) (k : Int) (pay : Payload) (x : Int)
    {p p' : Payload} (hp : d x = some p)
    (hp' : mergeData r d k pay x = some p') : tagLe p.tag p'.tag := by
  unfold mergeData at hp'
  split at hp'
  · rename_i hbig
    by_cases hx : x = k
    · subst hx
      rw [iupdate_self] at hp'
      rw [hp] at hbig
      simp only [Option.getD_some] at hbig
      cases hp'
      exact tagLt_tagLe (isLargerTag_nonleader hL hbig)
    · rw [iupdate_other _ _ _ _ hx, hp] at hp'
      cases hp'
      exact tagLe_rfl _
  · rw [hp] at hp'
    cases hp'
    exact tagLe_rfl _

/-- C6: `isLargerTag(current, received)` returns true exactly when the
received tag is strictly greater in the lexicographic order on
(timestamp, id), or in the refinement case (equal timestamps, distinct ids,
the replica is leader, and the current tag carries the replica's own id);
in particular it returns false on identical tags. -/
theorem isLargerTag_spec (r : Replica) (cur recv : Tag) :
    (isLargerTag r cur recv = true ↔
      (tagLt cur recv ∨ (cur.timestamp = recv.timestamp ∧ cur.id ≠ recv.id ∧
        r.isLeader = true ∧ cur.id = r.selfId))) ∧
    isLargerTag r cur cur = false :=
  ⟨isLargerTag_iff r cur recv, isLargerTag_self r cur⟩

theorem bcastGetLoop_no_zero (r : Replica) (args : GetMsg) :
    ∀ (fuel : Nat) (q : Int), (0 : Int) ∉ getTargets (bcastGetLoop r args fuel q) := by
  intro fuel
  induction fuel with
  | zero => intro q; simp [bcastGetLoop, getTargets]
  | succ n ih =>
    intro q
    simp only [bcastGetLoop]
    split
    · simp [getTargets]
    · split
      · exact ih _
      · split
        · exact ih _
        · rename_i h3
          simp only [getTargets, List.filterMap_cons]
          intro hmem
          simp only [List.mem_cons] at hmem
          rcases hmem with h | h
          · exact h3 h.symm
          · exact ih _ h

theorem bcastSetLoop_no_zero (r : Replica) (hm : List Int) (args : SetMsg) :
    ∀ (fuel : Nat) (q : Int), (0 : Int) ∉ setTargets (bcastSetLoop r hm args fuel q) := by
  intro fuel
  induction fuel with
  | zero => intro q; simp [bcastSetLoop, setTargets]
  | succ n ih =>
    intro q
    simp only [bcastSetLoop]
    split
    · simp [setTargets]
    · split
      · exact ih _
      · split
        · exact ih _
        · split
          · exact ih _
          · rename_i h3 _
            simp only [setTargets, List.filterMap_cons]
            intro hmem
            simp only [List.mem_cons] at hmem
            rcases hmem with h | h
            · exact h3 h.symm
            · exact ih _ h

/-- C10: neither `bcastGet` nor `bcastSet` ever sends to replica 0 — the
broadcast loops skip peer 0 unconditionally, for every instance, write flag,
key, payload and `hasMaxTag` set. -/
theorem bcast_never_targets_replica_zero (r : Replica) (instNo : Int)
    (write : Bool) (key : Int) (pay : Payload) (hm : List Int) :
    (0 : Int) ∉ getTargets (bcastGetActs r instNo write key) ∧
    (0 : Int) ∉ setTargets (bcastSetActs r hm instNo write key pay) :=
  ⟨bcastGetLoop_no_zero r _ _ _, bcastSetLoop_no_zero r hm _ _ _⟩

/-- C9: a GetReply arriving after an instance's discovery phase has closed
(`get_done = true`) leaves the replica state exactly as it was and emits
nothing: no Set broadcast, no change to `set_oks`, the key store, or the
instance table. -/
theorem getReply_after_getDone_identity (r : Replica) (gr : GetReply)
    (inst : Inst) (lb : LeaderBookkeeping)
    (h1 : r.instanceSpace gr.instNo = some inst) (h2 : inst.lb = some lb)
    (h3 : lb.getDone = true) :
    handleGetReply r gr = some (r, []) := by
  unfold handleGetReply
  rw [h1]
  simp only [h2, h3, if_true]

theorem getReply_after_getDone_identity_witness :
    handleGetReply rC9w grC9w = some (rC9w, []) :=
  getReply_after_getDone_identity rC9w grC9w
    { instBase with lb := some { lbBase with getDone := true } }
    { lbBase with getDone := true } rfl rfl rfl

/-- C3 (failing input): a PUT of value 42 whose discovery quorum closes mints
the tag (old timestamp + 1, self id) but binds it to the previously stored
value 5, not to the client-supplied 42, and that stale payload is what the
Set phase propagates. -/
theorem put_propagates_stale_value :
    rC3.instanceSpace 0 = some instC3 ∧
    instC3.cmds = [{ op := Op.put, k := 7, v := 42 }] ∧
    rC3.data 7 = some ⟨⟨3, 1⟩, 5⟩ ∧
    resultData (handleGetReply rC3 grC3) 7 = some ⟨⟨4, 1⟩, 5⟩ ∧
    actsOf (handleGetReply rC3 grC3) =
      [Act.sendSet 2 { replicaID := 1, instNo := 0, write := 1, key := 7,
                       payload := ⟨⟨4, 1⟩, 5⟩ }] :=
  ⟨rfl, rfl, by decide, by decide, by decide⟩

/-- C4 (failing input): at quorum close the scan over the received RMW
payloads stores the quorum-closing reply's payload (tag (1,0), value 3)
instead of the max-tag payload (tag (11,1), value 77), so the minted result
is (2,1)/4 rather than (12,1)/78 — the stored tag even regresses below the
prior local tag (10,0). -/
theorem rmw_quorum_adopts_wrong_payload :
    rC4.data 4 = some ⟨⟨10, 0⟩, 5⟩ ∧
    instC4.receivedRMWData = [⟨⟨11, 1⟩, 77⟩] ∧
    mC4.payload = ⟨⟨1, 0⟩, 3⟩ ∧
    resultData (handleRMWGetReply rC4 mC4) 4 = some ⟨⟨2, 1⟩, 4⟩ ∧
    tagLt ⟨2, 1⟩ ⟨11, 1⟩ ∧ tagLt ⟨2, 1⟩ ⟨10, 0⟩ :=
  ⟨by decide, rfl, rfl, by decide, by decide, by decide⟩

/-- C1 (counterexample): the claim fails twice over.  A leader running
`handleSet` replaces tag (5,2) by the strictly smaller (5,1) through the
leader refinement of `isLargerTag`; and even a non-leader running
`handleRMWGetReply` regresses key 9 from tag (10,1) to (2,2) because the
max-scan stores the closing reply's payload. -/
theorem tag_regression_leader_and_rmwscan :
    (rC1a.isLeader = true ∧ rC1a.data 7 = some ⟨⟨5, 2⟩, 10⟩ ∧
     resultData (abdStepRun rC1a (AbdStep.set sC1a)) 7 = some ⟨⟨5, 1⟩, 9⟩ ∧
     tagLt ⟨5, 1⟩ ⟨5, 2⟩) ∧
    (rC1b.isLeader = false ∧ rC1b.data 9 = some ⟨⟨10, 1⟩, 5⟩ ∧
     resultData (handleRMWGetReply rC1b mC1b) 9 = some ⟨⟨2, 2⟩, 4⟩ ∧
     tagLt ⟨2, 2⟩ ⟨10, 1⟩) :=
  ⟨⟨rfl, by decide, by decide, by decide⟩,
   ⟨rfl, by decide, by decide, by decide⟩⟩

/-- C2 (counterexample): on a leader coordinator with `initialTag` (5,2) and
a unanimous quorum tag (5,1), the code replies to the client immediately and
sends no Set, even though the initial tag is *not* ≤ the common tag in the
Tag order — the leader refinement of `isLargerTag` grants the optimized
read. -/
theorem optimized_read_leader_refinement_cex :
    hasClientReply (actsOf (handleGetReply rC2c grC2c)) = true ∧
    hasSendSet (actsOf (handleGetReply rC2c grC2c)) = false ∧
    (∀ rep ∈ instC2c.receivedData ++ [grC2c],
       rep.payload.tag = firstTagOf (instC2c.receivedData ++ [grC2c])) ∧
    ¬ tagLe instC2c.initialTag (firstTagOf (instC2c.receivedData ++ [grC2c])) :=
  ⟨by decide, by decide, by decide, by decide⟩

/-- C5 (counterexample): with five replicas and `hasMaxTag = {2}`, the first
SetReply (making `set_oks + 1 = 2`) already triggers the client reply,
although 2 exceeds neither the number of peers actually messaged by the Set
broadcast (two: replicas 3 and 4) nor N/2 — the code compares against
`len(hasMaxTag)`, not against the messaged-peer count. -/
theorem set_reply_threshold_cex :
    instC5c.lb = some { lbBase with hasMaxTag := [2], clientCmdId := 4 } ∧
    hasClientReply (actsOf (handleSetReply rC5c srC5)) = true ∧
    (setTargets (bcastSetActs rC5c [2] 0 true 0 zeroPayload)).length = 2 ∧
    ¬ ((2 > (setTargets (bcastSetActs rC5c [2] 0 true 0 zeroPayload)).length) ∨
       (2 > rC5c.n / 2)) :=
  ⟨rfl, by decide, by decide, by decide⟩

theorem handleRMWGet_none_iff (r : Replica) (m : RMWGet) (hcmd : m.command ≠ []) :
    handleRMWGet r m = none ↔ m.ballot < localBallot r m.instNo := by
  unfold handleRMWGet localBallot
  cases hc : m.command with
  | nil => exact absurd hc hcmd
  | cons cmd0 rest =>
    cases hI : r.instanceSpace m.instNo with
    | none => by_cases hb : m.ballot < r.defaultBallot <;> simp [hb]
    | some inst => by_cases hb : m.ballot < inst.ballot <;> simp [hb]

theorem handleRMWGet_replies (r : Replica) (m : RMWGet) (hcmd : m.command ≠ [])
    (hb : localBallot r m.instNo ≤ m.ballot) :
    (handleRMWGet r m).isSome = true ∧
    hasRMWGetReplyTo m.leaderId (actsOf (handleRMWGet r m)) = true := by
  unfold handleRMWGet
  unfold localBallot at hb
  cases hc : m.command with
  | nil => exact absurd hc hcmd
  | cons cmd0 rest =>
    cases hI : r.instanceSpace m.instNo with
    | none =>
      rw [hI] at hb
      have hb2 : r.defaultBallot ≤ m.ballot := by simpa using hb
      simp [show ¬ (m.ballot < r.defaultBallot) by omega, actsOf,
        hasRMWGetReplyTo]
    | some inst =>
      rw [hI] at hb
      have hb2 : inst.ballot ≤ m.ballot := by simpa using hb
      simp [show ¬ (m.ballot < inst.ballot) by omega, actsOf,
        hasRMWGetReplyTo]

theorem handleRMWSet_none_iff (r : Replica) (m : RMWSet) :
    handleRMWSet r m = none ↔ m.ballot < localBallot r m.instNo := by
  unfold handleRMWSet localBallot
  cases hI : r.instanceSpace m.instNo with
  | none => by_cases hb : m.ballot < r.defaultBallot <;> simp [hb]
  | some inst =>
    by_cases hb : inst.ballot > m.ballot
    · simp only [gt_iff_lt] at hb
      simp [hb]
    · simp only [gt_iff_lt, not_lt] at hb
      simp [show ¬ (inst.ballot > m.ballot) by omega,
        show ¬ (m.ballot < inst.ballot) by omega]

theorem handleRMWSet_replies (r : Replica) (m : RMWSet)
    (hb : localBallot r m.instNo ≤ m.ballot) :
    (handleRMWSet r m).isSome = true ∧
    hasRMWSetReplyTo m.leaderId (actsOf (handleRMWSet r m)) = true := by
  unfold handleRMWSet
  unfold localBallot at hb
  cases hI : r.instanceSpace m.instNo with
  | none =>
    rw [hI] at hb
    have hb2 : r.defaultBallot ≤ m.ballot := by simpa using hb
    simp [show ¬ (m.ballot < r.defaultBallot) by omega, actsOf,
      hasRMWSetReplyTo]
  | some inst =>
    rw [hI] at hb
    have hb2 : inst.ballot ≤ m.ballot := by simpa using hb
    by_cases h2 : inst.ballot < m.ballot <;>
      simp [h2, show ¬ (inst.ballot > m.ballot) by omega, actsOf,
        hasRMWSetReplyTo]

/-- C7: on RMWGet and RMWSet, the handler panics exactly when the incoming
ballot is strictly below the local ballot of the instance (the default
ballot when the slot is still empty); for every ballot at least the local
one it completes and sends a reply back to the message's sender. -/
theorem rmw_stale_ballot_rejected (r : Replica) :
    (∀ m : RMWGet, m.command ≠ [] →
      ((handleRMWGet r m = none ↔ m.ballot < localBallot r m.instNo) ∧
       (localBallot r m.instNo ≤ m.ballot →
         (handleRMWGet r m).isSome = true ∧
         hasRMWGetReplyTo m.leaderId (actsOf (handleRMWGet r m)) = true))) ∧
    (∀ m : RMWSet,
      ((handleRMWSet r m = none ↔ m.ballot < localBallot r m.instNo) ∧
       (localBallot r m.instNo ≤ m.ballot →
         (handleRMWSet r m).isSome = true ∧
         hasRMWSetReplyTo m.leaderId (actsOf (handleRMWSet r m)) = true))) :=
  ⟨fun m hcmd => ⟨handleRMWGet_none_iff r m hcmd,
      fun hb => handleRMWGet_replies r m hcmd hb⟩,
   fun m => ⟨handleRMWSet_none_iff r m,
      fun hb => handleRMWSet_replies r m hb⟩⟩

theorem rmw_stale_ballot_rejected_witness :
    handleRMWGet rBase mC7w = none ↔
      mC7w.ballot < localBallot rBase mC7w.instNo :=
  ((rmw_stale_ballot_rejected rBase).1 mC7w (by decide)).1

/-- C5 (amended): on each SetReply the coordinator increments `set_oks` and
replies to the client exactly when
`set_oks + 1 > len(hasMaxTag)` with `len(hasMaxTag) < N >> 1`, or
`set_oks + 1 > N >> 1` — the first comparison is against the size of the
`hasMaxTag` set itself, not against the number of peers actually messaged
by the Set broadcast. -/
theorem set_reply_threshold_iff (r : Replica) (sr : SetReplyMsg)
    (inst : Inst) (lb : LeaderBookkeeping)
    (h1 : r.instanceSpace sr.instNo = some inst) (h2 : inst.lb = some lb)
    (h7 : r.dreply = true) (h8 : lb.hasClientProposals = true)
    (h9 : lb.completed = false) :
    hasClientReply (actsOf (handleSetReply r sr)) = true ↔
      ((lb.setOKs + 1 + 1 > lb.hasMaxTag.length ∧
        lb.hasMaxTag.length < r.n / 2) ∨
       lb.setOKs + 1 + 1 > r.n / 2) := by
  unfold handleSetReply
  rw [h1]
  simp only [h2]
  split
  · rename_i hcond
    simp only [hcond, iff_true]
    simp [replyClient, iupdate_self, h8, h7, h9, actsOf, hasClientReply]
  · rename_i hcond
    simp only [actsOf, hasClientReply, List.any_nil]
    simpa using hcond

theorem set_reply_threshold_iff_witness :
    hasClientReply (actsOf (handleSetReply rC5w srC5)) = true ↔
      ((lbBase.setOKs + 1 + 1 > lbBase.hasMaxTag.length ∧
        lbBase.hasMaxTag.length < rC5w.n / 2) ∨
       lbBase.setOKs + 1 + 1 > rC5w.n / 2) :=
  set_reply_threshold_iff rC5w srC5 instBase lbBase rfl rfl rfl rfl rfl

theorem countTagMatches_le (t : Tag) (l : List GetReply) :
    countTagMatches t l ≤ l.length := by
  induction l with
  | nil => simp [countTagMatches]
  | cons rep rest ih =>
    simp only [countTagMatches, List.length_cons]
    split <;> omega

theorem countTagMatches_eq_length_iff (t : Tag) (l : List GetReply) :
    countTagMatches t l = l.length ↔ ∀ rep ∈ l, rep.payload.tag = t := by
  induction l with
  | nil => simp [countTagMatches]
  | cons rep rest ih =>
    simp only [countTagMatches, List.length_cons, List.mem_cons]
    constructor
    · intro h
      have hle := countTagMatches_le t rest
      by_cases heq : rep.payload.tag = t
      · rw [if_pos heq] at h
        have hrest : countTagMatches t rest = rest.length := by omega
        intro x hx
        rcases hx with hx | hx
        · rw [hx]; exact heq
        · exact (ih.mp hrest) x hx
      · rw [if_neg heq] at h
        omega
    · intro h
      have h1 : rep.payload.tag = t := h rep (Or.inl rfl)
      rw [if_pos h1]
      have hrest : countTagMatches t rest = rest.length :=
        ih.mpr fun x hx => h x (Or.inr hx)
      omega

theorem bcastSetLoop_no_clientReply (r : Replica) (hm : List Int)
    (args : SetMsg) :
    ∀ (fuel : Nat) (q : Int),
      hasClientReply (bcastSetLoop r hm args fuel q) = false := by
  intro fuel
  induction fuel with
  | zero => intro q; simp [bcastSetLoop, hasClientReply]
  | succ n ih =>
    intro q
    simp only [bcastSetLoop]
    split
    · simp [hasClientReply]
    · split
      · exact ih _
      · split
        · exact ih _
        · split
          · exact ih _
          · simp only [hasClientReply, List.any_cons] at ih ⊢
            simp [ih]

theorem bcastSetLoop_all_sendSet (r : Replica) (hm : List Int)
    (args : SetMsg) :
    ∀ (fuel : Nat) (q : Int),
      allSendSet (bcastSetLoop r hm args fuel q) = true := by
  intro fuel
  induction fuel with
  | zero => intro q; simp [bcastSetLoop, allSendSet]
  | succ n ih =>
    intro q
    simp only [bcastSetLoop]
    split
    · simp [allSendSet]
    · split
      · exact ih _
      · split
        · exact ih _
        · split
          · exact ih _
          · simp only [allSendSet, List.all_cons] at ih ⊢
            simp [ih]

theorem isLargerTag_set_instanceSpace (r : Replica) (f : Int → Option Inst)
    (a b : Tag) :
    isLargerTag { r with instanceSpace := f } a b = isLargerTag r a b := rfl

theorem isLargerTag_set_data (r : Replica) (d : Int → Option Payload)
    (a b : Tag) :
    isLargerTag { r with data := d } a b = isLargerTag r a b := rfl

theorem mergeData_set_instanceSpace (r : Replica) (f : Int → Option Inst)
    (d : Int → Option Payload) (k : Int) (pay : Payload) :
    mergeData { r with instanceSpace := f } d k pay = mergeData r d k pay := rfl

theorem isLargerTag_set_data_is (r : Replica) (d : Int → Option Payload)
    (f : Int → Option Inst) (a b : Tag) :
    isLargerTag { r with data := d, instanceSpace := f } a b =
      isLargerTag r a b := rfl

theorem replyClient_acts (r : Replica) (i : Int) (inst : Inst)
    (lb : LeaderBookkeeping) (h1 : r.instanceSpace i = some inst)
    (h2 : inst.lb = some lb) (h8 : lb.hasClientProposals = true)
    (h7 : r.dreply = true) (h9 : lb.completed = false) :
    actsOf (replyClient r i) = [Act.clientReply i true lb.clientCmdId] := by
  unfold replyClient
  rw [h1]
  simp [h2, h8, h7, h9, actsOf]

theorem bcastSetActs_no_clientReply (r : Replica) (hm : List Int)
    (instNo : Int) (write : Bool) (key : Int) (pay : Payload) :
    hasClientReply (bcastSetActs r hm instNo write key pay) = false := by
  unfold bcastSetActs
  exact bcastSetLoop_no_clientReply r hm _ _ _

/-- C2 (amended): for a GET proposal, at quorum close the coordinator skips
the Set phase and replies to the client immediately exactly when every
received reply's tag equals the first reply's tag *and* the instance's
`initial_tag` equals that common tag or `isLargerTag(initial_tag, common)`
returns true (which is ≤ in the Tag order except that the leader refinement
also accepts an equal-timestamp, smaller-id common tag). -/
theorem optimized_read_iff_code_condition (r : Replica) (gr : GetReply)
    (inst : Inst) (lb : LeaderBookkeeping)
    (h1 : r.instanceSpace gr.instNo = some inst) (h2 : inst.lb = some lb)
    (h3 : lb.getDone = false) (h4 : gr.ok = true) (h5 : gr.write = 0)
    (h6 : lb.getOKs + 1 + 1 > r.n / 2) (h7 : r.dreply = true)
    (h8 : lb.hasClientProposals = true) (h9 : lb.completed = false) :
    (hasClientReply (actsOf (handleGetReply r gr)) = true ∧
     hasSendSet (actsOf (handleGetReply r gr)) = false) ↔
    ((∀ rep ∈ inst.receivedData ++ [gr],
        rep.payload.tag = firstTagOf (inst.receivedData ++ [gr])) ∧
     (inst.initialTag = firstTagOf (inst.receivedData ++ [gr]) ∨
      isLargerTag r inst.initialTag (firstTagOf (inst.receivedData ++ [gr])) = true)) := by
  unfold handleGetReply
  rw [h1]
  simp only [h2, h3, h4, Bool.false_eq_true, if_false, if_true]
  rw [if_pos h6]
  rw [isLargerTag_set_data_is]
  have hle := countTagMatches_le (firstTagOf (inst.receivedData ++ [gr]))
    (inst.receivedData ++ [gr])
  by_cases hinit : inst.initialTag = firstTagOf (inst.receivedData ++ [gr]) ∨
      isLargerTag r inst.initialTag (firstTagOf (inst.receivedData ++ [gr])) = true
  · rw [if_pos hinit]
    by_cases hcnt : countTagMatches (firstTagOf (inst.receivedData ++ [gr]))
        (inst.receivedData ++ [gr]) = (inst.receivedData ++ [gr]).length
    · rw [if_pos (by exact ⟨h5, by omega⟩)]
      simp only [replyClient, iupdate_self, h8, h7, h9, actsOf,
        hasClientReply, hasSendSet, List.any_cons, List.any_nil]
      constructor
      · intro _
        exact ⟨(countTagMatches_eq_length_iff _ _).mp hcnt, hinit⟩
      · intro _
        exact ⟨rfl, rfl⟩
    · rw [if_neg (by
        intro hcon
        exact hcnt (by omega))]
      rw [h5]
      simp only [show (0 : Nat) = 1 ↔ False by simp, if_false]
      simp only [actsOf, bcastSetActs_no_clientReply, Bool.false_eq_true,
        false_and, false_iff]
      intro hcon
      exact hcnt ((countTagMatches_eq_length_iff _ _).mpr hcon.1)
  · rw [if_neg hinit]
    rw [if_neg (by
      intro hcon
      omega)]
    rw [h5]
    simp only [show (0 : Nat) = 1 ↔ False by simp, if_false]
    simp only [actsOf, bcastSetActs_no_clientReply, Bool.false_eq_true,
      false_and, false_iff]
    intro hcon
    exact hinit hcon.2

theorem optimized_read_iff_code_condition_witness :
    hasClientReply (actsOf (handleGetReply rC2w grC2w)) = true ∧
    hasSendSet (actsOf (handleGetReply rC2w grC2w)) = false :=
  (optimized_read_iff_code_condition rC2w grC2w instC2w
      { lbBase with clientCmdId := 8 } rfl rfl rfl rfl rfl (by decide)
      rfl rfl rfl).mpr ⟨by decide, by decide⟩

theorem mergeData_get_some {r : Replica} {d : Int → Option Payload}
    {k : Int} {pay : Payload} {x : Int} {p : Payload} (hp : d x = some p) :
    ∃ pm, mergeData r d k pay x = some pm := by
  unfold mergeData
  split
  · by_cases hx : x = k
    · subst hx
      rw [iupdate_self]
      exact ⟨_, rfl⟩
    · rw [iupdate_other _ _ _ _ hx]
      exact ⟨_, hp⟩
  · exact ⟨_, hp⟩

theorem merge_mint_mono {r : Replica} (hL : r.isLeader = false)
    (d : Int → Option Payload) (key : Int) (pay : Payload) (selfId : Int)
    (v : Int) (k : Int) {p p' : Payload} (hp : d k = some p)
    (hp' : iupdate (mergeData r d key pay) key
        (some ⟨⟨((mergeData r d key pay key).getD zeroPayload).tag.timestamp + 1,
               selfId⟩, v⟩) k = some p') :
    tagLe p.tag p'.tag := by
  by_cases hk : k = key
  · subst hk
    rw [iupdate_self] at hp'
    obtain ⟨pm, hmd⟩ := @mergeData_get_some r d k pay k p hp
    have h1 := mergeData_mono hL d k pay k hp hmd
    rw [hmd] at hp'
    simp only [Option.getD_some] at hp'
    cases hp'
    refine tagLe_trans h1 (Or.inl (Or.inl ?_))
    show pm.tag.timestamp < pm.tag.timestamp + 1
    omega
  · rw [iupdate_other _ _ _ _ hk] at hp'
    exact mergeData_mono hL d key pay k hp hp'

theorem handleGet_mono (r : Replica) (g : GetMsg) (hL : r.isLeader = false)
    (k : Int) (p p' : Payload) (hp : r.data k = some p)
    (hp' : (handleGet r g).1.data k = some p') : tagLe p.tag p'.tag := by
  simp only [handleGet] at hp'
  split at hp'
  · split at hp'
    · rename_i hcond
      dsimp only at hp'
      by_cases hk : k = g.key
      · subst hk
        rw [iupdate_self] at hp'
        cases hp'
        rcases hcond with hne | hlt
        · rw [hp] at hne
          simp at hne
        · have : dataGet r g.key = p := by
            unfold dataGet
            rw [hp]
            rfl
          rw [this] at hlt
          exact tagLt_tagLe (isLargerTag_nonleader hL hlt)
      · rw [iupdate_other _ _ _ _ hk, hp] at hp'
        cases hp'
        exact tagLe_rfl _
    · dsimp only at hp'
      rw [hp] at hp'
      cases hp'
      exact tagLe_rfl _
  · dsimp only at hp'
    rw [hp] at hp'
    cases hp'
    exact tagLe_rfl _

theorem handleSet_mono (r : Replica) (s : SetMsg) (hL : r.isLeader = false)
    (k : Int) (p p' : Payload) (hp : r.data k = some p)
    (hp' : (handleSet r s).1.data k = some p') : tagLe p.tag p'.tag :=
  mergeData_mono hL r.data s.key s.payload k hp hp'

theorem handleRMWSet_mono (r : Replica) (m : RMWSet)
    (hL : r.isLeader = false) (r' : Replica) (acts : List Act)
    (h : handleRMWSet r m = some (r', acts)) (k : Int) (p p' : Payload)
    (hp : r.data k = some p) (hp' : r'.data k = some p') :
    tagLe p.tag p'.tag := by
  unfold handleRMWSet at h
  cases hI : r.instanceSpace m.instNo with
  | none =>
    simp only [hI] at h
    split at h
    · simp at h
    · cases h
      exact mergeData_mono hL r.data m.key m.payload k hp hp'
  | some inst =>
    simp only [hI] at h
    split at h
    · simp at h
    · cases h
      exact mergeData_mono hL r.data m.key m.payload k hp hp'

theorem replyClient_data {r : Replica} {i : Int} {pr : Replica × List Act}
    (h : replyClient r i = some pr) : pr.1.data = r.data := by
  unfold replyClient at h
  cases hI : r.instanceSpace i with
  | none => simp [hI] at h
  | some inst =>
    simp only [hI] at h
    cases hlb : inst.lb with
    | none => simp [hlb] at h
    | some lb =>
      simp only [hlb] at h
      split at h <;> (cases h; rfl)

theorem handleGetReply_mono (r : Replica) (gr : GetReply)
    (hL : r.isLeader = false) (r' : Replica) (acts : List Act)
    (h : handleGetReply r gr = some (r', acts)) (k : Int) (p p' : Payload)
    (hp : r.data k = some p) (hp' : r'.data k = some p') :
    tagLe p.tag p'.tag := by
  unfold handleGetReply at h
  cases hI : r.instanceSpace gr.instNo with
  | none => simp [hI] at h
  | some inst =>
    simp only [hI] at h
    cases hlb : inst.lb with
    | none => simp [hlb] at h
    | some lb =>
      simp only [hlb] at h
      split at h
      · cases h
        rw [hp] at hp'
        cases hp'
        exact tagLe_rfl _
      · split at h
        · split at h
          · split at h
            · split at h
              · have hd := replyClient_data h
                rw [hd] at hp'
                exact mergeData_mono hL r.data gr.key gr.payload k hp hp'
              · split at h
                · cases h
                  exact merge_mint_mono hL r.data gr.key gr.payload r.selfId _
                    k hp hp'
                · cases h
                  exact mergeData_mono hL r.data gr.key gr.payload k hp hp'
            · split at h
              · have hd := replyClient_data h
                rw [hd] at hp'
                exact mergeData_mono hL r.data gr.key gr.payload k hp hp'
              · split at h
                · cases h
                  exact merge_mint_mono hL r.data gr.key gr.payload r.selfId _
                    k hp hp'
                · cases h
                  exact mergeData_mono hL r.data gr.key gr.payload k hp hp'
          · cases h
            exact mergeData_mono hL r.data gr.key gr.payload k hp hp'
        · cases h
          exact mergeData_mono hL r.data gr.key gr.payload k hp hp'

/-- C1 (amended): on a replica whose `IsLeader` flag is false, the handlers
`handleGet`, `handleSet`, `handleGetReply` and `handleRMWSet` only ever
replace a stored payload with one whose tag is at least as large in the Tag
order.  (The original claim fails in two ways, see the counterexample: with
`IsLeader` set the refinement in `isLargerTag` can adopt a strictly smaller
tag, and `handleRMWGetReply` can regress the tag even on a non-leader.) -/
theorem abd_handlers_tag_monotone_nonleader (r : Replica) (st : AbdStep)
    (k : Int) (p p' : Payload) (hL : r.isLeader = false)
    (hp : r.data k = some p)
    (hp' : resultData (abdStepRun r st) k = some p') :
    tagLe p.tag p'.tag := by
  cases st with
  | get g => exact handleGet_mono r g hL k p p' hp hp'
  | set s => exact handleSet_mono r s hL k p p' hp hp'
  | getReply gr =>
    simp only [abdStepRun] at hp'
    cases hh : handleGetReply r gr with
    | none => rw [hh] at hp'; simp [resultData] at hp'
    | some pr =>
      rw [hh] at hp'
      exact handleGetReply_mono r gr hL pr.1 pr.2 hh k p p' hp hp'
  | rmwSet m =>
    simp only [abdStepRun] at hp'
    cases hh : handleRMWSet r m with
    | none => rw [hh] at hp'; simp [resultData] at hp'
    | some pr =>
      rw [hh] at hp'
      exact handleRMWSet_mono r m hL pr.1 pr.2 hh k p p' hp hp'

theorem abd_handlers_tag_monotone_nonleader_witness :
    tagLe (⟨3, 1⟩ : Tag) ⟨4, 1⟩ :=
  abd_handlers_tag_monotone_nonleader rC1w (AbdStep.set sC1w) 7
    ⟨⟨3, 1⟩, 5⟩ ⟨⟨4, 1⟩, 6⟩ rfl rfl (by decide)

theorem completedAt_set_is (r : Replica) (f : Int → Option Inst) (i : Int) :
    completedAt { r with instanceSpace := f } i = instCompleted (f i) := rfl

theorem completedAt_set_data (r : Replica) (d : Int → Option Payload)
    (i : Int) :
    completedAt { r with data := d } i = completedAt r i := rfl

theorem completedAt_set_data_is (r : Replica) (d : Int → Option Payload)
    (f : Int → Option Inst) (i : Int) :
    completedAt { r with data := d, instanceSpace := f } i =
      instCompleted (f i) := rfl

theorem instCompleted_iupdate (f : Int → Option Inst) (j : Int)
    (o : Option Inst) (i : Int) :
    instCompleted (iupdate f j o i) =
      if i = j then instCompleted o else instCompleted (f i) := by
  unfold iupdate
  split <;> rfl

theorem replyBudget_no_reply {r r' : Replica} {acts : List Act} {i : Int}
    (ha : repliesFor i acts = 0)
    (hc : completedAt r i = true → completedAt r' i = true) :
    replyBudget r r' acts i := by
  unfold replyBudget
  rw [ha]
  cases hb : completedAt r i
  · simp
  · rw [hc hb]
    simp

theorem replyBudget_precomp {r rm r' : Replica} {acts : List Act} {i : Int}
    (hc : completedAt rm i = completedAt r i)
    (hb : replyBudget rm r' acts i) : replyBudget r r' acts i := by
  unfold replyBudget at hb ⊢
  rw [hc] at hb
  exact hb

theorem repliesFor_bcastGetLoop (r : Replica) (args : GetMsg) (i : Int) :
    ∀ (fuel : Nat) (q : Int), repliesFor i (bcastGetLoop r args fuel q) = 0 := by
  intro fuel
  induction fuel with
  | zero => intro q; rfl
  | succ n ih =>
    intro q
    simp only [bcastGetLoop]
    split
    · rfl
    · split
      · exact ih _
      · split
        · exact ih _
        · simp only [repliesFor, List.countP_cons] at ih ⊢
          simp [ih]

theorem repliesFor_bcastSetLoop (r : Replica) (hm : List Int) (args : SetMsg)
    (i : Int) :
    ∀ (fuel : Nat) (q : Int), repliesFor i (bcastSetLoop r hm args fuel q) = 0 := by
  intro fuel
  induction fuel with
  | zero => intro q; rfl
  | succ n ih =>
    intro q
    simp only [bcastSetLoop]
    split
    · rfl
    · split
      · exact ih _
      · split
        · exact ih _
        · split
          · exact ih _
          · simp only [repliesFor, List.countP_cons] at ih ⊢
            simp [ih]

theorem repliesFor_bcastRMWGetLoop (r : Replica) (args : RMWGet) (i : Int) :
    ∀ (fuel sent : Nat) (q : Int),
      repliesFor i (bcastRMWGetLoop r args fuel sent q) = 0 := by
  intro fuel
  induction fuel with
  | zero => intro sent q; rfl
  | succ n ih =>
    intro sent q
    simp only [bcastRMWGetLoop]
    split
    · split
      · rfl
      · split
        · exact ih _ _
        · simp only [repliesFor, List.countP_cons] at ih ⊢
          simp [ih]
    · rfl

theorem repliesFor_bcastRMWSetLoop (r : Replica) (args : RMWSet) (i : Int) :
    ∀ (fuel sent : Nat) (q : Int),
      repliesFor i (bcastRMWSetLoop r args fuel sent q) = 0 := by
  intro fuel
  induction fuel with
  | zero => intro sent q; rfl
  | succ n ih =>
    intro sent q
    simp only [bcastRMWSetLoop]
    split
    · split
      · rfl
      · split
        · exact ih _ _
        · simp only [repliesFor, List.countP_cons] at ih ⊢
          simp [ih]
    · rfl

theorem handleGet_budget (r : Replica) (g : GetMsg) (i : Int) :
    replyBudget r (handleGet r g).1 (handleGet r g).2 i := by
  have h1 : (handleGet r g).1.instanceSpace = r.instanceSpace := by
    simp only [handleGet]
    split
    · split <;> rfl
    · rfl
  have h2 : repliesFor i (handleGet r g).2 = 0 := by
    simp only [handleGet]
    split
    · split <;> rfl
    · rfl
  refine replyBudget_no_reply h2 ?_
  intro h
  unfold completedAt at h ⊢
  rw [h1]
  exact h

theorem handleSet_budget (r : Replica) (s : SetMsg) (i : Int) :
    replyBudget r (handleSet r s).1 (handleSet r s).2 i := by
  refine replyBudget_no_reply rfl ?_
  intro h
  exact h

theorem completedAt_mk (a : Int) (b : Nat) (c d : Bool) (e : Int)
    (f : Int → Bool) (g : Int → Option Payload) (IS : Int → Option Inst)
    (h1 : Int) (h2 : Int) (p : Int → Option Int) (x : Int) :
    completedAt (Replica.mk a b c d e f g IS h1 h2 p) x =
      instCompleted (IS x) := rfl

theorem replyClient_budget {r : Replica} {j : Int} {pr : Replica × List Act}
    (h : replyClient r j = some pr) (i : Int) :
    replyBudget r pr.1 pr.2 i := by
  unfold replyClient at h
  cases hI : r.instanceSpace j with
  | none => simp [hI] at h
  | some inst =>
    simp only [hI] at h
    cases hlb : inst.lb with
    | none => simp [hlb] at h
    | some lb =>
      simp only [hlb] at h
      split at h
      · rename_i hcond
        cases h
        unfold replyBudget
        simp only [completedAt_mk, instCompleted_iupdate]
        by_cases hij : i = j
        · subst hij
          have hbefore : completedAt r i = false := by
            unfold completedAt
            rw [hI]
            simpa [instCompleted, hlb] using hcond.2.2
          rw [if_pos rfl, hbefore]
          simp [repliesFor, List.countP_cons, instCompleted]
        · rw [if_neg hij]
          have hji : (j == i) = false := beq_eq_false_iff_ne.mpr (Ne.symm hij)
          simp only [repliesFor, List.countP_cons, List.countP_nil, hji,
            if_false, completedAt]
          simp
      · cases h
        exact replyBudget_no_reply rfl fun hh => hh

theorem executeRMWStep_budget {r : Replica} {ii : Int}
    {pr : Replica × List Act} (h : executeRMWStep r ii = some pr) (i : Int) :
    replyBudget r pr.1 pr.2 i := by
  unfold executeRMWStep at h
  cases hP : r.pendingRMWs ii with
  | none => simp [hP] at h
  | some j =>
    simp only [hP] at h
    cases hI : r.instanceSpace j with
    | none => simp [hI] at h
    | some inst =>
      simp only [hI] at h
      cases hlb : inst.lb with
      | none => simp [hlb] at h
      | some lb =>
        simp only [hlb] at h
        split at h
        · rename_i hcond
          cases h
          unfold replyBudget
          simp only [completedAt_mk, instCompleted_iupdate]
          by_cases hij : i = j
          · subst hij
            have hbefore : completedAt r i = false := by
              unfold completedAt
              rw [hI]
              simpa [instCompleted, hlb] using hcond.2.2
            rw [if_pos rfl, hbefore]
            simp [repliesFor, List.countP_cons, instCompleted]
          · rw [if_neg hij]
            have hji : (j == i) = false := beq_eq_false_iff_ne.mpr (Ne.symm hij)
            simp only [repliesFor, List.countP_cons, List.countP_nil, hji,
              if_false, completedAt]
            simp
        · cases h
          exact replyBudget_no_reply rfl fun hh => hh

theorem handleSetReply_budget {r r' : Replica} {sr : SetReplyMsg}
    {acts : List Act} (h : handleSetReply r sr = some (r', acts)) (i : Int) :
    replyBudget r r' acts i := by
  unfold handleSetReply at h
  cases hI : r.instanceSpace sr.instNo with
  | none => simp [hI] at h
  | some inst =>
    simp only [hI] at h
    cases hlb : inst.lb with
    | none => simp [hlb] at h
    | some lb =>
      simp only [hlb] at h
      split at h
      · have hb := replyClient_budget h i
        refine replyBudget_precomp ?_ hb
        simp only [completedAt_mk, instCompleted_iupdate]
        by_cases hij : i = sr.instNo
        · subst hij
          rw [if_pos rfl]
          unfold completedAt
          rw [hI]
          simp [instCompleted, hlb]
        · rw [if_neg hij]
          rfl
      · cases h
        refine replyBudget_no_reply rfl ?_
        intro hh
        simp only [completedAt_mk, instCompleted_iupdate]
        by_cases hij : i = sr.instNo
        · subst hij
          rw [if_pos rfl]
          unfold completedAt at hh
          rw [hI] at hh
          simp only [instCompleted, hlb] at hh ⊢
          exact hh
        · rw [if_neg hij]
          exact hh

theorem repliesFor_bcastSetActs (r : Replica) (hm : List Int) (instNo : Int)
    (write : Bool) (key : Int) (pay : Payload) (i : Int) :
    repliesFor i (bcastSetActs r hm instNo write key pay) = 0 := by
  unfold bcastSetActs
  exact repliesFor_bcastSetLoop r hm _ i _ _

theorem repliesFor_bcastGetActs (r : Replica) (instNo : Int) (write : Bool)
    (key : Int) (i : Int) :
    repliesFor i (bcastGetActs r instNo write key) = 0 := by
  unfold bcastGetActs
  exact repliesFor_bcastGetLoop r _ i _ _

theorem repliesFor_bcastRMWGetActs (r : Replica) (instNo ballot : Int)
    (cmds : List Command) (i : Int) :
    repliesFor i (bcastRMWGetActs r instNo ballot cmds) = 0 := by
  unfold bcastRMWGetActs
  exact repliesFor_bcastRMWGetLoop r _ i _ _ _

theorem repliesFor_bcastRMWSetActs (r : Replica) (instNo ballot : Int)
    (key : Int) (i : Int) :
    repliesFor i (bcastRMWSetActs r instNo ballot key) = 0 := by
  unfold bcastRMWSetActs
  exact repliesFor_bcastRMWSetLoop r _ i _ _ _

theorem handleRMWGet_budget {r r' : Replica} {m : RMWGet} {acts : List Act}
    (h : handleRMWGet r m = some (r', acts)) (i : Int) :
    replyBudget r r' acts i := by
  unfold handleRMWGet at h
  cases hc : m.command with
  | nil => simp [hc] at h
  | cons cmd0 rest =>
    simp only [hc] at h
    cases hI : r.instanceSpace m.instNo with
    | none =>
      simp only [hI] at h
      split at h
      · simp at h
      · cases h
        refine replyBudget_no_reply rfl ?_
        intro hh
        unfold completedAt at hh
        simp only [completedAt_mk, instCompleted_iupdate]
        by_cases hij : i = m.instNo
        · subst hij
          rw [hI] at hh
          simp [instCompleted] at hh
        · rw [if_neg hij]
          exact hh
    | some inst =>
      simp only [hI] at h
      split at h
      · simp at h
      · cases h
        refine replyBudget_no_reply rfl ?_
        intro hh
        simp only [completedAt_mk, instCompleted_iupdate]
        by_cases hij : i = m.instNo
        · subst hij
          rw [if_pos rfl]
          unfold completedAt at hh
          rw [hI] at hh
          simpa [instCompleted] using hh
        · rw [if_neg hij]
          exact hh

theorem handleRMWSet_budget {r r' : Replica} {m : RMWSet} {acts : List Act}
    (h : handleRMWSet r m = some (r', acts)) (i : Int) :
    replyBudget r r' acts i := by
  unfold handleRMWSet at h
  cases hI : r.instanceSpace m.instNo with
  | none =>
    simp only [hI] at h
    split at h
    · simp at h
    · cases h
      refine replyBudget_no_reply rfl ?_
      intro hh
      unfold completedAt at hh
      simp only [completedAt_mk, instCompleted_iupdate]
      by_cases hij : i = m.instNo
      · subst hij
        rw [hI] at hh
        simp [instCompleted] at hh
      · rw [if_neg hij]
        exact hh
  | some inst =>
    simp only [hI] at h
    split at h
    · simp at h
    · cases h
      refine replyBudget_no_reply rfl ?_
      intro hh
      simp only [completedAt_mk, instCompleted_iupdate]
      by_cases hij : i = m.instNo
      · subst hij
        rw [if_pos rfl]
        unfold completedAt at hh
        rw [hI] at hh
        split <;> simpa [instCompleted] using hh
      · rw [if_neg hij]
        exact hh

theorem handleRMWSetReply_budget {r r' : Replica} {m : RMWSetReply}
    {acts : List Act} (h : handleRMWSetReply r m = some (r', acts)) (i : Int) :
    replyBudget r r' acts i := by
  unfold handleRMWSetReply at h
  cases hI : r.instanceSpace m.instNo with
  | none => simp [hI] at h
  | some inst =>
    simp only [hI] at h
    cases hlb : inst.lb with
    | none => simp [hlb] at h
    | some lb =>
      simp only [hlb] at h
      split at h <;>
      · cases h
        refine replyBudget_no_reply rfl ?_
        intro hh
        simp only [completedAt_mk, instCompleted_iupdate]
        by_cases hij : i = m.instNo
        · subst hij
          rw [if_pos rfl]
          unfold completedAt at hh
          rw [hI] at hh
          simp only [instCompleted, hlb] at hh ⊢
          exact hh
        · rw [if_neg hij]
          exact hh

theorem handleRMWGetReply_budget {r r' : Replica} {m : RMWGetReply}
    {acts : List Act} (h : handleRMWGetReply r m = some (r', acts)) (i : Int) :
    replyBudget r r' acts i := by
  unfold handleRMWGetReply at h
  cases hI : r.instanceSpace m.instNo with
  | none => simp [hI] at h
  | some inst =>
    simp only [hI] at h
    cases hlb : inst.lb with
    | none => simp [hlb] at h
    | some lb =>
      simp only [hlb] at h
      split at h
      · cases h
        exact replyBudget_no_reply rfl fun hh => hh
      · split at h
        · cases h
          refine replyBudget_no_reply
            (repliesFor_bcastRMWSetActs _ _ _ _ _) ?_
          intro hh
          simp only [completedAt_mk, instCompleted_iupdate]
          by_cases hij : i = m.instNo
          · subst hij
            rw [if_pos rfl]
            unfold completedAt at hh
            rw [hI] at hh
            simp only [instCompleted, hlb] at hh ⊢
            exact hh
          · simp only [if_neg hij]
            exact hh
        · cases h
          refine replyBudget_no_reply (by rfl) ?_
          intro hh
          simp only [completedAt_mk, instCompleted_iupdate]
          by_cases hij : i = m.instNo
          · subst hij
            rw [if_pos rfl]
            unfold completedAt at hh
            rw [hI] at hh
            simp only [instCompleted, hlb] at hh ⊢
            exact hh
          · simp only [if_neg hij]
            exact hh

theorem handleGetReply_budget {r r' : Replica} {gr : GetReply}
    {acts : List Act} (h : handleGetReply r gr = some (r', acts)) (i : Int) :
    replyBudget r r' acts i := by
  unfold handleGetReply at h
  cases hI : r.instanceSpace gr.instNo with
  | none => simp [hI] at h
  | some inst =>
    simp only [hI] at h
    cases hlb : inst.lb with
    | none => simp [hlb] at h
    | some lb =>
      simp only [hlb] at h
      split at h
      · cases h
        exact replyBudget_no_reply rfl fun hh => hh
      · split at h
        · split at h
          · split at h
            · split at h
              · have hb := replyClient_budget h i
                refine replyBudget_precomp ?_ hb
                simp only [completedAt_mk, instCompleted_iupdate]
                by_cases hij : i = gr.instNo
                · subst hij
                  rw [if_pos rfl]
                  unfold completedAt
                  rw [hI]
                  simp only [instCompleted, hlb]
                · simp only [if_neg hij]
                  rfl
              · split at h
                · cases h
                  refine replyBudget_no_reply
                    (repliesFor_bcastSetActs _ _ _ _ _ _ _) ?_
                  intro hh
                  simp only [completedAt_mk, instCompleted_iupdate]
                  by_cases hij : i = gr.instNo
                  · subst hij
                    rw [if_pos rfl]
                    unfold completedAt at hh
                    rw [hI] at hh
                    simp only [instCompleted, hlb] at hh ⊢
                    exact hh
                  · simp only [if_neg hij]
                    exact hh
                · cases h
                  refine replyBudget_no_reply
                    (repliesFor_bcastSetActs _ _ _ _ _ _ _) ?_
                  intro hh
                  simp only [completedAt_mk, instCompleted_iupdate]
                  by_cases hij : i = gr.instNo
                  · subst hij
                    rw [if_pos rfl]
                    unfold completedAt at hh
                    rw [hI] at hh
                    simp only [instCompleted, hlb] at hh ⊢
                    exact hh
                  · simp only [if_neg hij]
                    exact hh
            · split at h
              · have hb := replyClient_budget h i
                refine replyBudget_precomp ?_ hb
                simp only [completedAt_mk, instCompleted_iupdate]
                by_cases hij : i = gr.instNo
                · subst hij
                  rw [if_pos rfl]
                  unfold completedAt
                  rw [hI]
                  simp only [instCompleted, hlb]
                · simp only [if_neg hij]
                  rfl
              · split at h
                · cases h
                  refine replyBudget_no_reply
                    (repliesFor_bcastSetActs _ _ _ _ _ _ _) ?_
                  intro hh
                  simp only [completedAt_mk, instCompleted_iupdate]
                  by_cases hij : i = gr.instNo
                  · subst hij
                    rw [if_pos rfl]
                    unfold completedAt at hh
                    rw [hI] at hh
                    simp only [instCompleted, hlb] at hh ⊢
                    exact hh
                  · simp only [if_neg hij]
                    exact hh
                · cases h
                  refine replyBudget_no_reply
                    (repliesFor_bcastSetActs _ _ _ _ _ _ _) ?_
                  intro hh
                  simp only [completedAt_mk, instCompleted_iupdate]
                  by_cases hij : i = gr.instNo
                  · subst hij
                    rw [if_pos rfl]
                    unfold completedAt at hh
                    rw [hI] at hh
                    simp only [instCompleted, hlb] at hh ⊢
                    exact hh
                  · simp only [if_neg hij]
                    exact hh
          · cases h
            refine replyBudget_no_reply (by rfl) ?_
            intro hh
            simp only [completedAt_mk, instCompleted_iupdate]
            by_cases hij : i = gr.instNo
            · subst hij
              rw [if_pos rfl]
              unfold completedAt at hh
              rw [hI] at hh
              simp only [instCompleted, hlb] at hh ⊢
              exact hh
            · simp only [if_neg hij]
              exact hh
        · cases h
          refine replyBudget_no_reply (by rfl) ?_
          intro hh
          simp only [completedAt_mk, instCompleted_iupdate]
          by_cases hij : i = gr.instNo
          · subst hij
            rw [if_pos rfl]
            unfold completedAt at hh
            rw [hI] at hh
            simp only [instCompleted, hlb] at hh ⊢
            exact hh
          · simp only [if_neg hij]
            exact hh

theorem handlePropose_budget (r : Replica) (slot : Int) (p : Propose)
    (hfree : r.instanceSpace slot = none) (i : Int) :
    replyBudget r (handlePropose r slot p).1 (handlePropose r slot p).2 i := by
  simp only [handlePropose]
  split
  · refine replyBudget_no_reply (repliesFor_bcastRMWGetActs _ _ _ _ _) ?_
    intro hh
    simp only [completedAt_mk, instCompleted_iupdate]
    by_cases hij : i = slot
    · subst hij
      unfold completedAt at hh
      rw [hfree] at hh
      simp [instCompleted] at hh
    · simp only [if_neg hij]
      exact hh
  · split
    · refine replyBudget_no_reply (repliesFor_bcastGetActs _ _ _ _ _) ?_
      intro hh
      simp only [completedAt_mk, instCompleted_iupdate]
      by_cases hij : i = slot
      · subst hij
        unfold completedAt at hh
        rw [hfree] at hh
        simp [instCompleted] at hh
      · simp only [if_neg hij]
        exact hh
    · split
      · refine replyBudget_no_reply (repliesFor_bcastGetActs _ _ _ _ _) ?_
        intro hh
        simp only [completedAt_mk, instCompleted_iupdate]
        by_cases hij : i = slot
        · subst hij
          unfold completedAt at hh
          rw [hfree] at hh
          simp [instCompleted] at hh
        · simp only [if_neg hij]
          exact hh
      · refine replyBudget_no_reply (repliesFor_bcastGetActs _ _ _ _ _) ?_
        intro hh
        simp only [completedAt_mk, instCompleted_iupdate]
        by_cases hij : i = slot
        · subst hij
          unfold completedAt at hh
          rw [hfree] at hh
          simp [instCompleted] at hh
        · simp only [if_neg hij]
          exact hh

theorem step_budget {r r' : Replica} {acts : List Act} (h : Step r r' acts)
    (i : Int) : replyBudget r r' acts i := by
  cases h with
  | hget g => exact handleGet_budget _ g i
  | hset s => exact handleSet_budget _ s i
  | hgetReply r2 gr acts2 hh => exact handleGetReply_budget hh i
  | hsetReply r2 sr acts2 hh => exact handleSetReply_budget hh i
  | hrmwGet r2 m acts2 hh => exact handleRMWGet_budget hh i
  | hrmwGetReply r2 m acts2 hh => exact handleRMWGetReply_budget hh i
  | hrmwSet r2 m acts2 hh => exact handleRMWSet_budget hh i
  | hrmwSetReply r2 m acts2 hh => exact handleRMWSetReply_budget hh i
  | hexec r2 j acts2 hh => exact executeRMWStep_budget hh i
  | hpropose slot p hfree => exact handlePropose_budget _ slot p hfree i

theorem exec_budget {i : Int} {r r' : Replica} {n : Nat}
    (h : Exec i r r' n) :
    n + (completedAt r i).toNat ≤ (completedAt r' i).toNat := by
  induction h with
  | refl r => omega
  | step r1 r2 r3 acts k hstep hexec ih =>
    have hb := step_budget hstep i
    unfold replyBudget at hb
    omega

/-- C8: over any interleaving of handler invocations, `executeRMWs` visits
and proposal admissions, each instance produces at most one client reply:
both reply paths send only when the instance's `completed` flag is false and
flip it to true in the same step, and no step ever resets the flag. -/
theorem at_most_one_client_reply (i : Int) (r r' : Replica) (n : Nat)
    (h : Exec i r r' n) (hstart : completedAt r i = false) : n ≤ 1 := by
  have hb := exec_budget h
  rw [hstart] at hb
  have h2 : (completedAt r' i).toNat ≤ 1 := by
    cases completedAt r' i <;> simp
  simp only [Bool.toNat_false] at hb
  omega

theorem at_most_one_client_reply_witness : (0 : Nat) ≤ 1 :=
  at_most_one_client_reply 0 rBase rBase 0 (Exec.refl rBase) rfl
